import Mathlib

/-!
Verification model of the BirdNET API service.

The definitions below are a shallow embedding of the Python sources:

* `src/models/detection.py`  — the `Detection` record.
* `src/routes/predict.py`    — the one-shot post-processing shared by
  `predict_from_file` and `predict_from_stream`: sort the raw detections by
  descending confidence, then keep the first (hence best) detection per
  `scientific_name`, in Python-dict insertion order.
* `src/routes/streaming.py`  — the `/ws/stream` realtime session:
  token check, init-payload validation, and the receive loop with its
  3-second (288000-byte) cumulative analysis windows, timeout handling,
  temp-file lifecycle and error paths.

Bytes are modelled as `Nat`, byte buffers as `List Nat`, Python floats as
rationals (`ℚ`), and the fallible environment (clock expiry, transport
events, temp-file creation, the BirdNET inference call) as explicit input
events, so every run of the model is a pure computation.
-/

/-- Model of `src/models/detection.py`: one BirdNET detection.  `confidence` and the
segment offsets are Python floats, modelled as rationals. -/
structure Detection where
  scientific_name : String
  common_name : String
  label : String
  confidence : ℚ
  start_time : ℚ
  end_time : ℚ
deriving DecidableEq

/-- Python `sorted(detections, key=lambda d: d["confidence"], reverse=True)`
(`src/routes/predict.py` lines 110 and 212, `src/routes/streaming.py` line
212): a stable sort putting larger confidences first. -/
def sortByConfidenceDesc (l : List Detection) : List Detection :=
  l.mergeSort fun a b => decide (b.confidence ≤ a.confidence)

/-- The grouping loop of `predict_from_file` / `predict_from_stream`
(`src/routes/predict.py` lines 111-117 and 213-219): walk the sorted list
and keep each `scientific_name`'s first detection.  `seen` is the key set of
the Python dict `best_per_species`; the output order is the dict's insertion
order (`best_per_species.values()`). -/
def best_per_species : List Detection → List String → List Detection
  | [], _ => []
  | d :: rest, seen =>
    if d.scientific_name ∈ seen then best_per_species rest seen
    else d :: best_per_species rest (d.scientific_name :: seen)

/-- Complete one-shot post-processing (steps 4-6 of the endpoint
docstrings): sort by descending confidence, then deduplicate by species. -/
def predictDedup (raw : List Detection) : List Detection :=
  best_per_species (sortByConfidenceDesc raw) []

/-! ## The realtime streaming session (`src/routes/streaming.py`) -/

/-- Constant `SAMPLE_RATE = 48000` (line 159). -/
def SAMPLE_RATE : Nat := 48000

/-- Constant `CHANNELS = 1` (line 160). -/
def CHANNELS : Nat := 1

/-- Constant `SAMPLE_WIDTH = 2` (line 161). -/
def SAMPLE_WIDTH : Nat := 2

/-- Constant `WINDOW_SECONDS = 3` (line 162). -/
def WINDOW_SECONDS : Nat := 3

/-- Constant `WINDOW_BYTES = SAMPLE_RATE * CHANNELS * SAMPLE_WIDTH * WINDOW_SECONDS`,
i.e. 288000 bytes per 3-second window (line 163). -/
def WINDOW_BYTES : Nat := SAMPLE_RATE * CHANNELS * SAMPLE_WIDTH * WINDOW_SECONDS

/-- The init payload of the realtime endpoint, as validated by the pydantic
model `RealtimeInit` (`src/routes/streaming.py` lines 59-98).  `none` means
the field is absent from the JSON payload; `date_ok` records whether the
optional `date` field (absent, or a well-formed date) parsed without
error. -/
structure RealtimeInitPayload where
  lat : Option ℚ
  lon : Option ℚ
  date_ok : Bool
  min_conf : Option ℚ
  timeout : Option ℚ
deriving DecidableEq

/-- Pydantic validation of `RealtimeInit`: `lat` required in [-90, 90],
`lon` required in [-180, 180], `min_conf` optional in [0, 1] (default 0.25),
`timeout` optional with minimum 1 (default 30), and the optional `date` must
parse.  `RealtimeInit(**init_payload)` (line 143) succeeds exactly when this
returns `true`. -/
def RealtimeInitPayload.validB (p : RealtimeInitPayload) : Bool :=
  (match p.lat with
   | some a => decide (-90 ≤ a ∧ a ≤ 90)
   | none => false) &&
  (match p.lon with
   | some b => decide (-180 ≤ b ∧ b ≤ 180)
   | none => false) &&
  (match p.min_conf with
   | some c => decide (0 ≤ c ∧ c ≤ 1)
   | none => true) &&
  (match p.timeout with
   | some t => decide (1 ≤ t)
   | none => true) &&
  p.date_ok

/-- Outcome of `write_temp_wav` (lines 21-40).  The function first creates
the file via `NamedTemporaryFile(suffix=".wav", delete=False)` and then
performs the `wave` writes; because `delete=False`, an exception raised by
the `wave` writes (e.g. a failing disk write) propagates with the
just-created file still on disk and its path lost to the caller
(`failFileLeft`).  An exception from `NamedTemporaryFile` itself leaves no
file behind (`failNoFile`). -/
inductive CreateOutcome
  | ok
  | failNoFile
  | failFileLeft
deriving DecidableEq

/-- Outcome of `run_birdnet_on_file` (lines 50-56): the raw detection list,
or an exception. -/
inductive InferOutcome
  | ok (dets : List Detection)
  | fail
deriving DecidableEq

/-- The environment's behavior for one window analysis: how temp-file
creation goes, and (if creation returns) how inference goes. -/
structure WindowBehavior where
  create : CreateOutcome
  infer : InferOutcome
deriving DecidableEq

/-- One iteration of the `while True` receive loop (lines 171-215), as
decided by the environment: either the elapsed-time check at the top of the
loop fires (`timeExpired`), or it does not and the 1-second
`receive_bytes` wait ends in `asyncio.TimeoutError` (`recvTimeout`),
`WebSocketDisconnect` (`recvDisconnect`), or an inbound binary chunk
(`recvChunk`, carrying the environment's behavior for the window analysis
this chunk may trigger). -/
inductive LoopEvent
  | timeExpired
  | recvTimeout
  | recvDisconnect
  | recvChunk (data : List Nat) (wb : WindowBehavior)
deriving DecidableEq

/-- Outbound traffic: the JSON messages sent with `send_json`, plus the
close frame sent by `websocket.close`. -/
inductive OutEvent
  | detectionsMsg (dets : List Detection)
  | invalidInitMsg
  | ioErrorMsg
  | birdnetErrorMsg
  | timeoutMsg
  | closeFrame (code : Nat)
deriving DecidableEq

/-- State of one streaming session.  `buffer` and `next_window_bytes` are
the Python locals of the same names; `trace` is the ordered log of outbound
traffic; `liveTempFiles` and `nextTempId` model the temp `.wav` files
currently on disk (each window analysis uses a fresh id); `windows` logs
each analysis launch as `(next_window_bytes, buffer[:next_window_bytes])`
at the moment `write_temp_wav` is called. -/
structure SessState where
  buffer : List Nat
  next_window_bytes : Nat
  trace : List OutEvent
  liveTempFiles : List Nat
  nextTempId : Nat
  windows : List (Nat × List Nat)
deriving DecidableEq

/-- Session state right after a valid init: empty buffer, first threshold
at `WINDOW_BYTES` (lines 166-168). -/
def initState : SessState :=
  { buffer := []
    next_window_bytes := WINDOW_BYTES
    trace := []
    liveTempFiles := []
    nextTempId := 0
    windows := [] }

/-- One iteration of the receive loop (lines 171-215).  `Sum.inl` is a
state the loop continues from; `Sum.inr` is a final state (the handler
returned).  Mirrors the source exactly:

* timeout check at the top: send `{"timeout": true}`, close 1000, return;
* `asyncio.TimeoutError` on `receive_bytes`: `continue`;
* `WebSocketDisconnect`: return with no further output;
* a chunk: `buffer.extend(msg)`; then a single `if len(buffer) >=
  next_window_bytes` check.  On fire, `write_temp_wav(buffer[:next_window_bytes], ...)`
  either fails (send I/O error, close 1011, return; the file may or may not
  be left on disk), or returns a fresh path; then `run_birdnet_on_file`
  either fails (`safe_remove` in the except branch plus again in `finally`,
  send BirdNET error, close 1011, return) or returns detections
  (`finally` removes the file, the sorted detections are sent, and
  `next_window_bytes += WINDOW_BYTES`). -/
def stepLoop (s : SessState) : LoopEvent → SessState ⊕ SessState
  | .timeExpired =>
      .inr { s with trace := s.trace ++ [.timeoutMsg, .closeFrame 1000] }
  | .recvTimeout => .inl s
  | .recvDisconnect => .inr s
  | .recvChunk data wb =>
      let buf := s.buffer ++ data
      if s.next_window_bytes ≤ buf.length then
        let s1 : SessState :=
          { s with
            buffer := buf
            windows := s.windows ++ [(s.next_window_bytes, buf.take s.next_window_bytes)] }
        match wb.create with
        | .failNoFile =>
            .inr { s1 with trace := s1.trace ++ [.ioErrorMsg, .closeFrame 1011] }
        | .failFileLeft =>
            .inr { s1 with
                   liveTempFiles := s1.liveTempFiles ++ [s1.nextTempId]
                   nextTempId := s1.nextTempId + 1
                   trace := s1.trace ++ [.ioErrorMsg, .closeFrame 1011] }
        | .ok =>
            let s2 : SessState :=
              { s1 with
                liveTempFiles := s1.liveTempFiles ++ [s1.nextTempId]
                nextTempId := s1.nextTempId + 1 }
            match wb.infer with
            | .fail =>
                .inr { s2 with
                       liveTempFiles := (s2.liveTempFiles.erase s1.nextTempId).erase s1.nextTempId
                       trace := s2.trace ++ [.birdnetErrorMsg, .closeFrame 1011] }
            | .ok dets =>
                .inl { s2 with
                       liveTempFiles := s2.liveTempFiles.erase s1.nextTempId
                       trace := s2.trace ++ [.detectionsMsg (sortByConfidenceDesc dets)]
                       next_window_bytes := s.next_window_bytes + WINDOW_BYTES }
      else .inl { s with buffer := buf }

/-- Run the receive loop over a finite script of iteration events.  The
Boolean is `true` when the handler returned (the session terminated) and
`false` when the script was exhausted with the session still running. -/
def runLoop : SessState → List LoopEvent → SessState × Bool
  | s, [] => (s, false)
  | s, e :: rest =>
      match stepLoop s e with
      | .inl s' => runLoop s' rest
      | .inr s' => (s', true)

/-- How the phase before the receive loop ends: the 10-second
`asyncio.wait_for(websocket.receive_json(), ...)` (line 137) times out, the
client disconnects, the first frame fails to parse as JSON
(`receive_json` raises `JSONDecodeError` on non-JSON text, or `KeyError`
on a binary frame — neither is caught by the `except` at line 138, which
handles only `asyncio.TimeoutError` and `WebSocketDisconnect`), or a
parsed JSON init payload arrives. -/
inductive InitEvent
  | initTimeout
  | initDisconnect
  | initUnparseable
  | initPayload (p : RealtimeInitPayload)
deriving DecidableEq

/-- The whole `websocket_realtime` handler (lines 110-222) on one session:
token check (close 1008 on mismatch), init wait (close 1008 on timeout or
disconnect), init validation (error message then close 1008 on an invalid
payload), then the receive loop.  On `initUnparseable` the exception
raised inside `receive_json` propagates uncaught out of the handler
(the outer try at line 170 has not been entered yet): the handler sends
no message and calls no close — the resulting session state carries an
empty outbound log. -/
def websocket_realtime (tokenOk : Bool) (ie : InitEvent) (script : List LoopEvent) :
    SessState :=
  if tokenOk then
    match ie with
    | .initTimeout => { initState with trace := [.closeFrame 1008] }
    | .initDisconnect => { initState with trace := [.closeFrame 1008] }
    | .initUnparseable => initState
    | .initPayload p =>
        if p.validB then (runLoop initState script).1
        else { initState with trace := [.invalidInitMsg, .closeFrame 1008] }
  else { initState with trace := [.closeFrame 1008] }

/-- The window behavior of an environment in which temp-file creation and
inference always succeed (with no species detected). -/
def okBehavior : WindowBehavior := ⟨.ok, .ok []⟩

/-- A script that only delivers inbound chunks, with no clock expiry, no
disconnect, and a fully healthy environment. -/
def chunkScript (chunks : List (List Nat)) : List LoopEvent :=
  chunks.map fun c => .recvChunk c okBehavior

/-- Final session state after streaming `chunks` through a healthy
session. -/
def runChunks (chunks : List (List Nat)) : SessState :=
  (runLoop initState (chunkScript chunks)).1

/-- A block of `n` zero-valued PCM bytes (silence), used as concrete
inbound payloads. -/
def zeros (n : Nat) : List Nat := List.replicate n 0

/-! ## Predicates and invariants used by the theorems -/

/-- Is this outbound event a detections message? -/
def isDetectionsMsg : OutEvent → Bool
  | .detectionsMsg _ => true
  | _ => false

/-- Is this outbound event one of the two mid-session failure messages
(`{"error": "I/O error: …"}` / `{"error": "BirdNET failed: …"}`,
lines 194 and 202)? -/
def isErrorMsg : OutEvent → Bool
  | .ioErrorMsg => true
  | .birdnetErrorMsg => true
  | _ => false

/-- Is this outbound event a close frame (as opposed to a JSON message sent
with `send_json`)? -/
def isCloseFrame : OutEvent → Bool
  | .closeFrame _ => true
  | _ => false

/-- The event's window analysis (if any) does not hit the one failure mode
of `write_temp_wav` that leaves the `NamedTemporaryFile(delete=False)` file
on disk. -/
def noMidwayCreateFail : LoopEvent → Bool
  | .recvChunk _ wb =>
      match wb.create with
      | .failFileLeft => false
      | _ => true
  | _ => true

/-- An iteration event that delivers no audio bytes: a poll timeout, or an
inbound chunk of zero bytes. -/
def isZeroByteEvent : LoopEvent → Bool
  | .recvTimeout => true
  | .recvChunk data _ => data.isEmpty
  | _ => false

/-- Consistency of the ghost window log `ws` with a byte buffer `buf`:
entry `i` fired at threshold `(i+1) * WINDOW_BYTES` and submitted exactly
the first `(i+1) * WINDOW_BYTES` bytes, a count `buf` has reached. -/
def WinOK (ws : List (Nat × List Nat)) (buf : List Nat) : Prop :=
  ∀ i (h : i < ws.length),
    (ws[i]).1 = (i + 1) * WINDOW_BYTES ∧
    (ws[i]).2 = buf.take ((i + 1) * WINDOW_BYTES) ∧
    (i + 1) * WINDOW_BYTES ≤ buf.length

/-- Invariant of running (not yet returned) session states: the next
threshold is one window past the ones already fired, and the window log is
consistent with the buffer. -/
def RunInv (s : SessState) : Prop :=
  s.next_window_bytes = (s.windows.length + 1) * WINDOW_BYTES ∧
  WinOK s.windows s.buffer

/-- While the loop is running, the outbound log holds only detections
messages — one per launched window analysis. -/
def TraceInv (s : SessState) : Prop :=
  (∀ m ∈ s.trace, isDetectionsMsg m = true) ∧
  s.windows.length = s.trace.length

/-- Shape of the outbound log of a returned session: either it contains no
failure message at all, or it is a run of detections messages followed by
exactly one failure message and the 1011 close frame, with the failed
window the last one ever launched. -/
def HaltTrace (s : SessState) : Prop :=
  (∀ m ∈ s.trace, isErrorMsg m = false) ∨
  ∃ pre err, isErrorMsg err = true ∧
    s.trace = pre ++ [err, OutEvent.closeFrame 1011] ∧
    (∀ m ∈ pre, isDetectionsMsg m = true) ∧
    s.windows.length = pre.length + 1

/-- The spec's one-shot example: species A at confidence 0.9. -/
def detA9 : Detection := ⟨"A", "A common", "A label", 9/10, 0, 3⟩

/-- The spec's one-shot example: species A at confidence 0.4. -/
def detA4 : Detection := ⟨"A", "A common", "A label", 2/5, 3, 6⟩

/-- The spec's one-shot example: species B at confidence 0.6. -/
def detB6 : Detection := ⟨"B", "B common", "B label", 3/5, 0, 3⟩

/-- The spec's one-shot example raw detection list. -/
def exampleRaw : List Detection := [detA9, detA4, detB6]

/-- A valid init payload (lat 60, lon 22, defaults elsewhere). -/
def goodInit : RealtimeInitPayload :=
  { lat := some 60, lon := some 22, date_ok := true, min_conf := none, timeout := none }

/-- An init payload missing the required `lon` field. -/
def badInit : RealtimeInitPayload :=
  { lat := some 60, lon := none, date_ok := true, min_conf := none, timeout := none }

/-! ## Lemmas about the one-shot post-processing -/

/-- The function `best_per_species` returns a sublist of its input. -/
theorem best_per_species_sublist (l : List Detection) :
    ∀ seen : List String, (best_per_species l seen).Sublist l := by
  induction l with
  | nil => intro seen; simp [best_per_species]
  | cons x rest ih =>
    intro seen
    simp only [best_per_species]
    split
    · exact (ih seen).cons x
    · exact (ih _).cons₂ x

/-- A detection kept by `best_per_species` never has a species name from
`seen`. -/
theorem best_per_species_not_seen (l : List Detection) :
    ∀ (seen : List String) (d : Detection),
      d ∈ best_per_species l seen → d.scientific_name ∉ seen := by
  induction l with
  | nil => intro seen d hd; simp [best_per_species] at hd
  | cons x rest ih =>
    intro seen d hd
    simp only [best_per_species] at hd
    by_cases hx : x.scientific_name ∈ seen
    · rw [if_pos hx] at hd
      exact ih seen d hd
    · rw [if_neg hx] at hd
      rcases List.mem_cons.1 hd with h | h
      · subst h; exact hx
      · intro hmem
        exact (ih _ d h) (List.mem_cons_of_mem _ hmem)

/-- On a list sorted by non-increasing confidence, every detection kept by
`best_per_species` has maximal confidence among the input detections of its
species. -/
theorem best_per_species_max (l : List Detection) :
    ∀ seen : List String,
      l.Pairwise (fun a b => b.confidence ≤ a.confidence) →
      ∀ d ∈ best_per_species l seen, ∀ d' ∈ l,
        d'.scientific_name = d.scientific_name → d'.confidence ≤ d.confidence := by
  induction l with
  | nil => intro seen _ d hd; simp [best_per_species] at hd
  | cons x rest ih =>
    intro seen hp d hd d' hd' hname
    rcases List.pairwise_cons.1 hp with ⟨hx, hrest⟩
    simp only [best_per_species] at hd
    by_cases hseen : x.scientific_name ∈ seen
    · rw [if_pos hseen] at hd
      rcases List.mem_cons.1 hd' with h | h
      · exfalso
        have hnot := best_per_species_not_seen rest seen d hd
        rw [h] at hname
        rw [hname] at hseen
        exact hnot hseen
      · exact ih seen hrest d hd d' h hname
    · rw [if_neg hseen] at hd
      rcases List.mem_cons.1 hd with h | h
      · subst h
        rcases List.mem_cons.1 hd' with h' | h'
        · rw [h']
        · exact hx d' h'
      · have hnot := best_per_species_not_seen rest _ d h
        rcases List.mem_cons.1 hd' with h' | h'
        · exfalso
          apply hnot
          rw [← hname, h']
          exact List.mem_cons_self _ _
        · exact ih _ hrest d h d' h' hname

/-- Species coverage of `best_per_species`: the output names are exactly the
input names that are not already in `seen`. -/
theorem best_per_species_names (l : List Detection) :
    ∀ (seen : List String) (s : String),
      s ∈ (best_per_species l seen).map Detection.scientific_name ↔
        (s ∈ l.map Detection.scientific_name ∧ s ∉ seen) := by
  induction l with
  | nil => intro seen s; simp [best_per_species]
  | cons x rest ih =>
    intro seen s
    simp only [best_per_species, List.map_cons, List.mem_cons]
    by_cases hx : x.scientific_name ∈ seen
    · rw [if_pos hx, ih]
      constructor
      · rintro ⟨h1, h2⟩
        exact ⟨Or.inr h1, h2⟩
      · rintro ⟨h1 | h1, h2⟩
        · exact absurd (h1 ▸ hx) h2
        · exact ⟨h1, h2⟩
    · rw [if_neg hx]
      simp only [List.map_cons, List.mem_cons, ih]
      constructor
      · rintro (h | ⟨h1, h2⟩)
        · exact ⟨Or.inl h, h ▸ hx⟩
        · exact ⟨Or.inr h1, fun hm => h2 (Or.inr hm)⟩
      · rintro ⟨h1 | h1, h2⟩
        · exact Or.inl h1
        · by_cases hxs : s = x.scientific_name
          · exact Or.inl hxs
          · exact Or.inr ⟨h1, fun hm => hm.elim hxs h2⟩

/-- The species names produced by `best_per_species` are pairwise
distinct. -/
theorem best_per_species_nodup (l : List Detection) :
    ∀ seen : List String,
      ((best_per_species l seen).map Detection.scientific_name).Nodup := by
  induction l with
  | nil => intro seen; simp [best_per_species]
  | cons x rest ih =>
    intro seen
    simp only [best_per_species]
    by_cases hx : x.scientific_name ∈ seen
    · rw [if_pos hx]; exact ih seen
    · rw [if_neg hx]
      simp only [List.map_cons]
      rw [List.nodup_cons]
      refine ⟨?_, ih _⟩
      intro hmem
      rcases List.mem_map.1 hmem with ⟨d, hd, hdn⟩
      exact best_per_species_not_seen rest _ d hd (hdn ▸ List.mem_cons_self _ _)

/-- The sort used by the endpoints really orders confidences in
non-increasing order. -/
theorem sortByConfidenceDesc_sorted (l : List Detection) :
    (sortByConfidenceDesc l).Pairwise fun a b => b.confidence ≤ a.confidence := by
  have htrans : ∀ a b c : Detection,
      (decide (b.confidence ≤ a.confidence)) = true →
      (decide (c.confidence ≤ b.confidence)) = true →
      (decide (c.confidence ≤ a.confidence)) = true := by
    intro a b c hab hbc
    simp only [decide_eq_true_eq] at *
    exact le_trans hbc hab
  have htotal : ∀ a b : Detection,
      ((decide (b.confidence ≤ a.confidence)) ||
        (decide (a.confidence ≤ b.confidence))) = true := by
    intro a b
    simpa using le_total b.confidence a.confidence
  have h := @List.sorted_mergeSort Detection
    (fun a b => decide (b.confidence ≤ a.confidence)) htrans htotal l
  exact h.imp fun hab => of_decide_eq_true hab

/-- The sort is a permutation of the raw list. -/
theorem sortByConfidenceDesc_perm (l : List Detection) :
    (sortByConfidenceDesc l).Perm l :=
  List.mergeSort_perm l _

/-! ## Lemmas about the receive loop -/

/-- Extending the buffer preserves window-log consistency: an already
submitted cumulative window is still a prefix of the grown buffer. -/
theorem winOK_append (ws : List (Nat × List Nat)) (buf data : List Nat)
    (h : WinOK ws buf) : WinOK ws (buf ++ data) := by
  intro i hi
  obtain ⟨h1, h2, h3⟩ := h i hi
  refine ⟨h1, ?_, ?_⟩
  · rw [h2, List.take_append_of_le_length h3]
  · calc (i + 1) * WINDOW_BYTES ≤ buf.length := h3
      _ ≤ (buf ++ data).length := by simp

/-- Launching one more analysis at the next threshold preserves window-log
consistency. -/
theorem winOK_snoc (ws : List (Nat × List Nat)) (buf : List Nat) (t : Nat)
    (h : WinOK ws buf) (ht : t = (ws.length + 1) * WINDOW_BYTES)
    (hle : t ≤ buf.length) :
    WinOK (ws ++ [(t, buf.take t)]) buf := by
  intro i hi
  have hlen : (ws ++ [(t, buf.take t)]).length = ws.length + 1 := by simp
  rw [hlen] at hi
  by_cases hlt : i < ws.length
  · rw [List.getElem_append_left hlt]
    exact h i hlt
  · have hi' : i = ws.length := by omega
    rw [List.getElem_concat_length ws _ i hi']
    refine ⟨by rw [ht, hi'], by rw [ht, hi'], by rw [hi', ← ht]; exact hle⟩

/-- What one loop iteration guarantees: a continued state keeps `RunInv`,
and a returned state still has a consistent window log. -/
theorem stepLoop_cases (s : SessState) (e : LoopEvent) (hs : RunInv s) :
    (∀ s', stepLoop s e = .inl s' → RunInv s') ∧
    (∀ s', stepLoop s e = .inr s' → WinOK s'.windows s'.buffer) := by
  obtain ⟨hnext, hwin⟩ := hs
  cases e with
  | timeExpired =>
    refine ⟨fun s' h => ?_, fun s' h => ?_⟩
    · simp only [stepLoop] at h
      cases h
    · simp only [stepLoop] at h
      cases h
      exact hwin
  | recvTimeout =>
    refine ⟨fun s' h => ?_, fun s' h => ?_⟩
    · simp only [stepLoop] at h
      cases h
      exact ⟨hnext, hwin⟩
    · simp only [stepLoop] at h
      cases h
  | recvDisconnect =>
    refine ⟨fun s' h => ?_, fun s' h => ?_⟩
    · simp only [stepLoop] at h
      cases h
    · simp only [stepLoop] at h
      cases h
      exact hwin
  | recvChunk data wb =>
    by_cases hfire : s.next_window_bytes ≤ (s.buffer ++ data).length
    · have hsn : WinOK (s.windows ++
          [(s.next_window_bytes, (s.buffer ++ data).take s.next_window_bytes)])
          (s.buffer ++ data) :=
        winOK_snoc _ _ _ (winOK_append _ _ _ hwin) hnext hfire
      cases hc : wb.create with
      | failNoFile =>
        refine ⟨fun s' h => ?_, fun s' h => ?_⟩
        · simp only [stepLoop, if_pos hfire, hc] at h
          cases h
        · simp only [stepLoop, if_pos hfire, hc] at h
          cases h
          exact hsn
      | failFileLeft =>
        refine ⟨fun s' h => ?_, fun s' h => ?_⟩
        · simp only [stepLoop, if_pos hfire, hc] at h
          cases h
        · simp only [stepLoop, if_pos hfire, hc] at h
          cases h
          exact hsn
      | ok =>
        cases hinf : wb.infer with
        | fail =>
          refine ⟨fun s' h => ?_, fun s' h => ?_⟩
          · simp only [stepLoop, if_pos hfire, hc, hinf] at h
            cases h
          · simp only [stepLoop, if_pos hfire, hc, hinf] at h
            cases h
            exact hsn
        | ok dets =>
          refine ⟨fun s' h => ?_, fun s' h => ?_⟩
          · simp only [stepLoop, if_pos hfire, hc, hinf] at h
            cases h
            refine ⟨?_, hsn⟩
            simp only [List.length_append, List.length_cons, List.length_nil]
            rw [hnext]
            ring
          · simp only [stepLoop, if_pos hfire, hc, hinf] at h
            cases h
    · refine ⟨fun s' h => ?_, fun s' h => ?_⟩
      · simp only [stepLoop, if_neg hfire] at h
        cases h
        exact ⟨hnext, winOK_append _ _ _ hwin⟩
      · simp only [stepLoop, if_neg hfire] at h
        cases h

/-- Running the loop preserves window-log consistency, and `RunInv` as long
as the session has not returned. -/
theorem runLoop_inv (evs : List LoopEvent) :
    ∀ s : SessState, RunInv s →
      WinOK (runLoop s evs).1.windows (runLoop s evs).1.buffer ∧
      ((runLoop s evs).2 = false → RunInv (runLoop s evs).1) := by
  induction evs with
  | nil => exact fun s hs => ⟨hs.2, fun _ => hs⟩
  | cons e rest ih =>
    intro s hs
    cases heq : stepLoop s e with
    | inl s' =>
      simp only [runLoop, heq]
      exact ih s' ((stepLoop_cases s e hs).1 s' heq)
    | inr s' =>
      simp only [runLoop, heq]
      exact ⟨(stepLoop_cases s e hs).2 s' heq, by simp⟩

/-- The initial session state satisfies the running invariant. -/
theorem runInv_initState : RunInv initState := by
  refine ⟨by simp [initState], fun i hi => ?_⟩
  simp [initState] at hi

/-- In a healthy environment an inbound chunk always continues the loop,
appends its bytes, launches at most one analysis, and — when chunks are at
most one window's worth of bytes — keeps the buffer below the next
threshold. -/
theorem stepLoop_chunk (s : SessState) (data : List Nat) :
    ∃ s', stepLoop s (.recvChunk data okBehavior) = .inl s' ∧
      s'.buffer = s.buffer ++ data ∧
      s'.windows.length ≤ s.windows.length + 1 ∧
      (s.buffer.length < s.next_window_bytes → data.length ≤ WINDOW_BYTES →
        s'.buffer.length < s'.next_window_bytes) := by
  by_cases hfire : s.next_window_bytes ≤ (s.buffer ++ data).length
  · refine ⟨{ s with
        buffer := s.buffer ++ data
        next_window_bytes := s.next_window_bytes + WINDOW_BYTES
        trace := s.trace ++ [.detectionsMsg (sortByConfidenceDesc [])]
        liveTempFiles := (s.liveTempFiles ++ [s.nextTempId]).erase s.nextTempId
        nextTempId := s.nextTempId + 1
        windows := s.windows ++
          [(s.next_window_bytes, (s.buffer ++ data).take s.next_window_bytes)] },
      by simp only [stepLoop, okBehavior, if_pos hfire], rfl, by simp, ?_⟩
    intro hlt hdata
    simp only [List.length_append]
    omega
  · refine ⟨{ s with buffer := s.buffer ++ data },
      by simp only [stepLoop, okBehavior, if_neg hfire], rfl, Nat.le_succ _, ?_⟩
    intro _ _
    simp only [List.length_append] at hfire ⊢
    omega

/-- Streaming chunks through a healthy session never returns, accumulates
exactly the concatenation of the chunks, launches at most one analysis per
chunk, and — for chunks of at most one window's worth of bytes — keeps the
buffer below the next threshold. -/
theorem runChunks_run (chunks : List (List Nat)) :
    ∀ s : SessState,
      (runLoop s (chunkScript chunks)).2 = false ∧
      (runLoop s (chunkScript chunks)).1.buffer = s.buffer ++ chunks.flatten ∧
      (runLoop s (chunkScript chunks)).1.windows.length ≤
        s.windows.length + chunks.length ∧
      ((∀ c ∈ chunks, c.length ≤ WINDOW_BYTES) →
        s.buffer.length < s.next_window_bytes →
        (runLoop s (chunkScript chunks)).1.buffer.length <
          (runLoop s (chunkScript chunks)).1.next_window_bytes) := by
  induction chunks with
  | nil =>
    intro s
    simp [chunkScript, runLoop]
  | cons c rest ih =>
    intro s
    obtain ⟨s', hstep, hbuf, hwins, hsmall⟩ := stepLoop_chunk s c
    simp only [chunkScript, List.map_cons, runLoop, hstep]
    obtain ⟨ih1, ih2, ih3, ih4⟩ := ih s'
    simp only [chunkScript] at ih1 ih2 ih3 ih4
    refine ⟨ih1, ?_, ?_, ?_⟩
    · rw [ih2, hbuf, List.flatten_cons, List.append_assoc]
    · calc (runLoop s' (List.map (fun c => .recvChunk c okBehavior) rest)).1.windows.length
          ≤ s'.windows.length + rest.length := ih3
        _ ≤ s.windows.length + (c :: rest).length := by
            simp only [List.length_cons]; omega
    · intro hall hlt
      exact ih4 (fun c' hc' => hall c' (List.mem_cons_of_mem _ hc'))
        (hsmall hlt (hall c (List.mem_cons_self _ _)))

/-- A detections message is not a failure message. -/
theorem isDetectionsMsg_not_error (m : OutEvent) (h : isDetectionsMsg m = true) :
    isErrorMsg m = false := by
  cases m <;> simp [isDetectionsMsg, isErrorMsg] at h ⊢

/-- One loop iteration, seen through the outbound log: a continued state
keeps `TraceInv`; a returned state has a `HaltTrace`-shaped log. -/
theorem stepLoop_trace (s : SessState) (e : LoopEvent) (hs : TraceInv s) :
    (∀ s', stepLoop s e = .inl s' → TraceInv s') ∧
    (∀ s', stepLoop s e = .inr s' → HaltTrace s') := by
  obtain ⟨htr, hcount⟩ := hs
  cases e with
  | timeExpired =>
    refine ⟨fun s' h => ?_, fun s' h => ?_⟩
    · simp only [stepLoop] at h
      cases h
    · simp only [stepLoop] at h
      cases h
      left
      intro m hm
      rcases List.mem_append.1 hm with hm | hm
      · exact isDetectionsMsg_not_error m (htr m hm)
      · simp only [List.mem_cons, List.not_mem_nil, or_false] at hm
        rcases hm with rfl | rfl <;> rfl
  | recvTimeout =>
    refine ⟨fun s' h => ?_, fun s' h => ?_⟩
    · simp only [stepLoop] at h
      cases h
      exact ⟨htr, hcount⟩
    · simp only [stepLoop] at h
      cases h
  | recvDisconnect =>
    refine ⟨fun s' h => ?_, fun s' h => ?_⟩
    · simp only [stepLoop] at h
      cases h
    · simp only [stepLoop] at h
      cases h
      left
      exact fun m hm => isDetectionsMsg_not_error m (htr m hm)
  | recvChunk data wb =>
    by_cases hfire : s.next_window_bytes ≤ (s.buffer ++ data).length
    · cases hc : wb.create with
      | failNoFile =>
        refine ⟨fun s' h => ?_, fun s' h => ?_⟩
        · simp only [stepLoop, if_pos hfire, hc] at h
          cases h
        · simp only [stepLoop, if_pos hfire, hc] at h
          cases h
          right
          refine ⟨s.trace, .ioErrorMsg, rfl, rfl, htr, ?_⟩
          simp [hcount]
      | failFileLeft =>
        refine ⟨fun s' h => ?_, fun s' h => ?_⟩
        · simp only [stepLoop, if_pos hfire, hc] at h
          cases h
        · simp only [stepLoop, if_pos hfire, hc] at h
          cases h
          right
          refine ⟨s.trace, .ioErrorMsg, rfl, rfl, htr, ?_⟩
          simp [hcount]
      | ok =>
        cases hinf : wb.infer with
        | fail =>
          refine ⟨fun s' h => ?_, fun s' h => ?_⟩
          · simp only [stepLoop, if_pos hfire, hc, hinf] at h
            cases h
          · simp only [stepLoop, if_pos hfire, hc, hinf] at h
            cases h
            right
            refine ⟨s.trace, .birdnetErrorMsg, rfl, rfl, htr, ?_⟩
            simp [hcount]
        | ok dets =>
          refine ⟨fun s' h => ?_, fun s' h => ?_⟩
          · simp only [stepLoop, if_pos hfire, hc, hinf] at h
            cases h
            refine ⟨?_, ?_⟩
            · intro m hm
              rcases List.mem_append.1 hm with hm | hm
              · exact htr m hm
              · simp only [List.mem_cons, List.not_mem_nil, or_false] at hm
                subst hm
                rfl
            · simp [hcount]
          · simp only [stepLoop, if_pos hfire, hc, hinf] at h
            cases h
    · refine ⟨fun s' h => ?_, fun s' h => ?_⟩
      · simp only [stepLoop, if_neg hfire] at h
        cases h
        exact ⟨htr, hcount⟩
      · simp only [stepLoop, if_neg hfire] at h
        cases h

/-- Running the loop: a terminated run has a `HaltTrace`-shaped log; an
unterminated run keeps `TraceInv`. -/
theorem runLoop_trace (evs : List LoopEvent) :
    ∀ s, TraceInv s →
      ((runLoop s evs).2 = true → HaltTrace (runLoop s evs).1) ∧
      ((runLoop s evs).2 = false → TraceInv (runLoop s evs).1) := by
  induction evs with
  | nil =>
    intro s hs
    exact ⟨by simp [runLoop], fun _ => hs⟩
  | cons e rest ih =>
    intro s hs
    cases heq : stepLoop s e with
    | inl s' =>
      simp only [runLoop, heq]
      exact ih s' ((stepLoop_trace s e hs).1 s' heq)
    | inr s' =>
      simp only [runLoop, heq]
      exact ⟨fun _ => (stepLoop_trace s e hs).2 s' heq, by simp⟩

/-- The initial session state has an empty, trivially consistent log. -/
theorem traceInv_initState : TraceInv initState := by
  constructor
  · intro m hm
    simp [initState] at hm
  · rfl

/-- One loop iteration leaves no temp file on disk, provided the
mid-creation failure mode does not occur. -/
theorem stepLoop_files (s : SessState) (e : LoopEvent)
    (hf : s.liveTempFiles = []) (he : noMidwayCreateFail e = true) :
    (∀ s', stepLoop s e = .inl s' → s'.liveTempFiles = []) ∧
    (∀ s', stepLoop s e = .inr s' → s'.liveTempFiles = []) := by
  cases e with
  | timeExpired =>
    refine ⟨fun s' h => ?_, fun s' h => ?_⟩ <;> simp only [stepLoop] at h
    · cases h
    · cases h
      exact hf
  | recvTimeout =>
    refine ⟨fun s' h => ?_, fun s' h => ?_⟩ <;> simp only [stepLoop] at h
    · cases h
      exact hf
    · cases h
  | recvDisconnect =>
    refine ⟨fun s' h => ?_, fun s' h => ?_⟩ <;> simp only [stepLoop] at h
    · cases h
    · cases h
      exact hf
  | recvChunk data wb =>
    by_cases hfire : s.next_window_bytes ≤ (s.buffer ++ data).length
    · cases hc : wb.create with
      | failNoFile =>
        refine ⟨fun s' h => ?_, fun s' h => ?_⟩ <;>
          simp only [stepLoop, if_pos hfire, hc] at h
        · cases h
        · cases h
          exact hf
      | failFileLeft =>
        exfalso
        simp only [noMidwayCreateFail, hc] at he
        exact Bool.noConfusion he
      | ok =>
        cases hinf : wb.infer with
        | fail =>
          refine ⟨fun s' h => ?_, fun s' h => ?_⟩ <;>
            simp only [stepLoop, if_pos hfire, hc, hinf] at h
          · cases h
          · cases h
            simp [hf]
        | ok dets =>
          refine ⟨fun s' h => ?_, fun s' h => ?_⟩ <;>
            simp only [stepLoop, if_pos hfire, hc, hinf] at h
          · cases h
            simp [hf]
          · cases h
    · refine ⟨fun s' h => ?_, fun s' h => ?_⟩ <;>
        simp only [stepLoop, if_neg hfire] at h
      · cases h
        exact hf
      · cases h

/-- Running the loop leaves no temp file on disk, provided no window
analysis hits the mid-creation failure mode. -/
theorem runLoop_files (evs : List LoopEvent) :
    ∀ s, s.liveTempFiles = [] → (∀ e ∈ evs, noMidwayCreateFail e = true) →
      (runLoop s evs).1.liveTempFiles = [] := by
  induction evs with
  | nil => exact fun s hf _ => hf
  | cons e rest ih =>
    intro s hf hall
    have he := hall e (List.mem_cons_self _ _)
    cases heq : stepLoop s e with
    | inl s' =>
      simp only [runLoop, heq]
      exact ih s' ((stepLoop_files s e hf he).1 s' heq)
        fun e' he' => hall e' (List.mem_cons_of_mem _ he')
    | inr s' =>
      simp only [runLoop, heq]
      exact (stepLoop_files s e hf he).2 s' heq

/-- A zero-byte loop event leaves the fresh session state unchanged. -/
theorem stepLoop_zero (e : LoopEvent) (he : isZeroByteEvent e = true) :
    stepLoop initState e = .inl initState := by
  cases e with
  | recvTimeout => rfl
  | timeExpired => simp [isZeroByteEvent] at he
  | recvDisconnect => simp [isZeroByteEvent] at he
  | recvChunk data wb =>
    have hd : data = [] := by
      simpa [isZeroByteEvent, List.isEmpty_iff] using he
    subst hd
    simp [stepLoop, initState, WINDOW_BYTES, SAMPLE_RATE, CHANNELS,
      SAMPLE_WIDTH, WINDOW_SECONDS]

/-- Zero-byte events before the rest of the script are no-ops for a fresh
session. -/
theorem runLoop_zero_bytes (evs : List LoopEvent) :
    ∀ pre : List LoopEvent, (∀ e ∈ pre, isZeroByteEvent e = true) →
      runLoop initState (pre ++ evs) = runLoop initState evs := by
  intro pre
  induction pre with
  | nil => intro _; rfl
  | cons e rest ih =>
    intro hpre
    have hstep := stepLoop_zero e (hpre e (List.mem_cons_self _ _))
    simp only [List.cons_append, runLoop, hstep]
    exact ih fun e' he' => hpre e' (List.mem_cons_of_mem _ he')

/-! ## Claim theorems -/

/-- C7: for every raw detection list, the one-shot endpoints return exactly
one entry per distinct `scientific_name` occurring in the raw list, and
each returned entry is a raw detection of maximal confidence for its
species. -/
theorem one_shot_best_per_species (raw : List Detection) :
    (∀ s, s ∈ (predictDedup raw).map Detection.scientific_name ↔
          s ∈ raw.map Detection.scientific_name) ∧
    ((predictDedup raw).map Detection.scientific_name).Nodup ∧
    ∀ d ∈ predictDedup raw, d ∈ raw ∧
      ∀ d' ∈ raw, d'.scientific_name = d.scientific_name →
        d'.confidence ≤ d.confidence := by
  refine ⟨?_, best_per_species_nodup _ _, ?_⟩
  · intro s
    rw [predictDedup, best_per_species_names]
    simp only [List.not_mem_nil, not_false_iff, and_true]
    exact ((sortByConfidenceDesc_perm raw).map Detection.scientific_name).mem_iff
  · intro d hd
    rw [predictDedup] at hd
    have hmem : d ∈ sortByConfidenceDesc raw :=
      List.Sublist.mem hd (best_per_species_sublist _ _)
    refine ⟨(sortByConfidenceDesc_perm raw).mem_iff.1 hmem, ?_⟩
    intro d' hd' hname
    exact best_per_species_max _ [] (sortByConfidenceDesc_sorted raw) d hd d'
      ((sortByConfidenceDesc_perm raw).mem_iff.2 hd') hname

/-- C7 witness: on the spec's example `[A@0.9, A@0.4, B@0.6]`, the entry
`A@0.9` is returned and dominates every raw `A` detection. -/
theorem one_shot_best_per_species_witness :
    detA9 ∈ predictDedup exampleRaw ∧
    detA9 ∈ exampleRaw ∧
    ∀ d' ∈ exampleRaw, d'.scientific_name = detA9.scientific_name →
      d'.confidence ≤ detA9.confidence := by
  have hlist : predictDedup exampleRaw = [detA9, detB6] := by
    norm_num [predictDedup, sortByConfidenceDesc, List.mergeSort, best_per_species,
      detA9, detA4, detB6, exampleRaw]
    decide
  have hmem : detA9 ∈ predictDedup exampleRaw := by
    rw [hlist]
    exact List.mem_cons_self _ _
  have h := (one_shot_best_per_species exampleRaw).2.2 detA9 hmem
  exact ⟨hmem, h.1, h.2⟩

/-- C10: the list returned by the one-shot endpoints is ordered by
non-increasing confidence. -/
theorem one_shot_sorted_desc (raw : List Detection) :
    (predictDedup raw).Pairwise fun a b => b.confidence ≤ a.confidence :=
  List.Pairwise.sublist (best_per_species_sublist _ _) (sortByConfidenceDesc_sorted raw)

/-- Running `runLoop` on the empty script. -/
theorem runLoop_nil (s : SessState) : runLoop s [] = (s, false) := rfl

/-- Unfolding `runLoop` when the first iteration continues. -/
theorem runLoop_cons_inl {s s' : SessState} {e : LoopEvent} {evs : List LoopEvent}
    (h : stepLoop s e = .inl s') : runLoop s (e :: evs) = runLoop s' evs := by
  simp only [runLoop, h]

/-- Unfolding `runLoop` when the first iteration returns. -/
theorem runLoop_cons_inr {s s' : SessState} {e : LoopEvent} {evs : List LoopEvent}
    (h : stepLoop s e = .inr s') : runLoop s (e :: evs) = (s', true) := by
  simp only [runLoop, h]

/-- Equation for a fired window whose temp file and inference both
succeed. -/
theorem stepLoop_fire_ok_ok (s : SessState) (data : List Nat)
    (wb : WindowBehavior) (dets : List Detection)
    (hfire : s.next_window_bytes ≤ (s.buffer ++ data).length)
    (hc : wb.create = .ok) (hi : wb.infer = .ok dets) :
    stepLoop s (.recvChunk data wb) =
      .inl { s with
        buffer := s.buffer ++ data
        next_window_bytes := s.next_window_bytes + WINDOW_BYTES
        trace := s.trace ++ [.detectionsMsg (sortByConfidenceDesc dets)]
        liveTempFiles := (s.liveTempFiles ++ [s.nextTempId]).erase s.nextTempId
        nextTempId := s.nextTempId + 1
        windows := s.windows ++
          [(s.next_window_bytes, (s.buffer ++ data).take s.next_window_bytes)] } := by
  simp only [stepLoop, if_pos hfire, hc, hi]

/-- Equation for a fired window whose temp file succeeds but whose
inference call raises. -/
theorem stepLoop_fire_ok_fail (s : SessState) (data : List Nat)
    (wb : WindowBehavior)
    (hfire : s.next_window_bytes ≤ (s.buffer ++ data).length)
    (hc : wb.create = .ok) (hi : wb.infer = .fail) :
    stepLoop s (.recvChunk data wb) =
      .inr { s with
        buffer := s.buffer ++ data
        trace := s.trace ++ [.birdnetErrorMsg, .closeFrame 1011]
        liveTempFiles :=
          ((s.liveTempFiles ++ [s.nextTempId]).erase s.nextTempId).erase s.nextTempId
        nextTempId := s.nextTempId + 1
        windows := s.windows ++
          [(s.next_window_bytes, (s.buffer ++ data).take s.next_window_bytes)] } := by
  simp only [stepLoop, if_pos hfire, hc, hi]

/-- Equation for a fired window whose temp-file creation raises after the
`NamedTemporaryFile` already exists on disk. -/
theorem stepLoop_fire_leak (s : SessState) (data : List Nat)
    (wb : WindowBehavior)
    (hfire : s.next_window_bytes ≤ (s.buffer ++ data).length)
    (hc : wb.create = .failFileLeft) :
    stepLoop s (.recvChunk data wb) =
      .inr { s with
        buffer := s.buffer ++ data
        trace := s.trace ++ [.ioErrorMsg, .closeFrame 1011]
        liveTempFiles := s.liveTempFiles ++ [s.nextTempId]
        nextTempId := s.nextTempId + 1
        windows := s.windows ++
          [(s.next_window_bytes, (s.buffer ++ data).take s.next_window_bytes)] } := by
  simp only [stepLoop, if_pos hfire, hc]


/-- The block `zeros n` has length `n`. -/
theorem zeros_length (n : Nat) : (zeros n).length = n := List.length_replicate n 0

/-- Unfolding `runChunks` on a single chunk to the loop. -/
theorem runChunks_singleton (c : List Nat) :
    runChunks [c] = (runLoop initState [.recvChunk c ⟨.ok, .ok []⟩]).1 := rfl

/-- A valid init payload hands the script to the receive loop. -/
theorem websocket_realtime_valid (p : RealtimeInitPayload)
    (hp : p.validB = true) (script : List LoopEvent) :
    websocket_realtime true (.initPayload p) script = (runLoop initState script).1 := by
  simp [websocket_realtime, hp]

/-- A fresh session fed one chunk big enough to cross the first threshold
(in a healthy environment) launches exactly one analysis. -/
theorem runLoop_single_ok (c : List Nat) (dets : List Detection)
    (hfire : WINDOW_BYTES ≤ c.length) :
    (runLoop initState [.recvChunk c ⟨.ok, .ok dets⟩]).1.windows.length = 1 := by
  have hfire' : initState.next_window_bytes ≤ (initState.buffer ++ c).length := by
    simpa [initState] using hfire
  have hstep := stepLoop_fire_ok_ok initState c ⟨.ok, .ok dets⟩ dets hfire' rfl rfl
  rw [runLoop_cons_inl hstep, runLoop_nil]
  simp [initState]

/-- A fresh session fed one chunk big enough to cross the first threshold,
whose temp-file creation fails after the file exists, ends with that file
still on disk. -/
theorem runLoop_single_leak (c : List Nat) (io : InferOutcome)
    (hfire : WINDOW_BYTES ≤ c.length) :
    (runLoop initState [.recvChunk c ⟨.failFileLeft, io⟩]).1.liveTempFiles = [0] := by
  have hfire' : initState.next_window_bytes ≤ (initState.buffer ++ c).length := by
    simpa [initState] using hfire
  have hstep := stepLoop_fire_leak initState c ⟨.failFileLeft, io⟩ hfire' rfl
  rw [runLoop_cons_inr hstep]
  simp [initState]

/-- A fresh session fed two window-crossing chunks, with inference raising
on the second window only, emits one detections message, then one error
message, then the 1011 close frame. -/
theorem runLoop_two_fail (c₁ c₂ : List Nat) (dets : List Detection)
    (h1 : WINDOW_BYTES ≤ c₁.length)
    (h2 : WINDOW_BYTES + WINDOW_BYTES ≤ c₁.length + c₂.length) :
    (runLoop initState
        [.recvChunk c₁ ⟨.ok, .ok dets⟩, .recvChunk c₂ ⟨.ok, .fail⟩]).1.trace =
      [.detectionsMsg (sortByConfidenceDesc dets), .birdnetErrorMsg,
        .closeFrame 1011] := by
  have hfire1 : initState.next_window_bytes ≤ (initState.buffer ++ c₁).length := by
    simpa [initState] using h1
  have hstep1 := stepLoop_fire_ok_ok initState c₁ ⟨.ok, .ok dets⟩ dets hfire1 rfl rfl
  rw [runLoop_cons_inl hstep1]
  set s1 : SessState := { initState with
    buffer := initState.buffer ++ c₁
    next_window_bytes := initState.next_window_bytes + WINDOW_BYTES
    trace := initState.trace ++ [.detectionsMsg (sortByConfidenceDesc dets)]
    liveTempFiles :=
      (initState.liveTempFiles ++ [initState.nextTempId]).erase initState.nextTempId
    nextTempId := initState.nextTempId + 1
    windows := initState.windows ++
      [(initState.next_window_bytes, (initState.buffer ++ c₁).take
        initState.next_window_bytes)] } with hs1
  have hfire2 : s1.next_window_bytes ≤ (s1.buffer ++ c₂).length := by
    rw [hs1]
    simp only [initState, List.length_append, List.nil_append, List.length_nil]
    simpa using h2
  have hstep2 := stepLoop_fire_ok_fail s1 c₂ ⟨.ok, .fail⟩ hfire2 rfl rfl
  rw [runLoop_cons_inr hstep2]
  rw [hs1]
  simp [initState]

/-! ## Claim theorems for the streaming session -/

/-- C1 (counterexample): a single 600000-byte chunk into a fresh healthy
session triggers exactly ONE analysis before the next inbound read — not
`⌊600000 / 288000⌋ = 2` — because the boundary check (line 188) is a single
`if` per received message, re-run only after the next receive succeeds. -/
theorem stream_burst_single_fire :
    (runChunks [zeros 600000]).windows.length = 1 ∧
    600000 / WINDOW_BYTES = 2 := by
  constructor
  · rw [runChunks_singleton]
    exact runLoop_single_ok (zeros 600000) [] (by
      rw [zeros_length]
      norm_num [WINDOW_BYTES, SAMPLE_RATE, CHANNELS, SAMPLE_WIDTH, WINDOW_SECONDS])
  · norm_num [WINDOW_BYTES, SAMPLE_RATE, CHANNELS, SAMPLE_WIDTH, WINDOW_SECONDS]

/-- C1 (amended): each inbound chunk triggers at most one analysis, and
when every inbound chunk carries at most 288000 bytes, a healthy session
that received N bytes in total performs exactly ⌊N / 288000⌋ analysis
invocations. -/
theorem stream_invocation_count (chunks : List (List Nat))
    (hsmall : ∀ c ∈ chunks, c.length ≤ WINDOW_BYTES) :
    (runChunks chunks).windows.length = chunks.flatten.length / WINDOW_BYTES ∧
    (runChunks chunks).windows.length ≤ chunks.length := by
  simp only [runChunks]
  obtain ⟨hh, hbuf, hwins, hs⟩ := runChunks_run chunks initState
  have hinv : RunInv (runLoop initState (chunkScript chunks)).1 :=
    (runLoop_inv (chunkScript chunks) initState runInv_initState).2 hh
  have h0 : initState.buffer.length < initState.next_window_bytes := by
    norm_num [initState, WINDOW_BYTES, SAMPLE_RATE, CHANNELS, SAMPLE_WIDTH,
      WINDOW_SECONDS]
  have h1 := hs hsmall h0
  have hlt : (runLoop initState (chunkScript chunks)).1.buffer.length <
      ((runLoop initState (chunkScript chunks)).1.windows.length + 1) *
        WINDOW_BYTES := by
    rw [← hinv.1]
    exact h1
  have hge : (runLoop initState (chunkScript chunks)).1.windows.length *
      WINDOW_BYTES ≤ (runLoop initState (chunkScript chunks)).1.buffer.length := by
    cases hn : (runLoop initState (chunkScript chunks)).1.windows.length with
    | zero => simp
    | succ k =>
      obtain ⟨-, -, h3⟩ := hinv.2 k (by omega)
      exact h3
  have hdiv : (runLoop initState (chunkScript chunks)).1.buffer.length /
      WINDOW_BYTES = (runLoop initState (chunkScript chunks)).1.windows.length :=
    Nat.div_eq_of_lt_le hge hlt
  constructor
  · rw [← hdiv, hbuf]
    simp [initState]
  · simpa [initState] using hwins

/-- C1 witness: one 288000-byte chunk satisfies the size bound and yields
exactly ⌊288000 / 288000⌋ analysis invocations. -/
theorem stream_invocation_count_witness :
    (∀ c ∈ [zeros 288000], c.length ≤ WINDOW_BYTES) ∧
    (runChunks [zeros 288000]).windows.length =
      ([zeros 288000].flatten).length / WINDOW_BYTES := by
  have hsmall : ∀ c ∈ [zeros 288000], c.length ≤ WINDOW_BYTES := by
    intro c hc
    simp only [List.mem_singleton] at hc
    subst hc
    rw [zeros_length]
    norm_num [WINDOW_BYTES, SAMPLE_RATE, CHANNELS, SAMPLE_WIDTH, WINDOW_SECONDS]
  exact ⟨hsmall, (stream_invocation_count _ hsmall).1⟩

/-- C2: the i-th analysis invocation of a healthy streaming session (with
0-based i) is always run over exactly the first (i+1)·288000 bytes the
session has received — the cumulative prefix from byte 0, never a sliding
or disjoint slice. -/
theorem stream_window_is_cumulative (chunks : List (List Nat)) (i : Nat)
    (hi : i < (runChunks chunks).windows.length) :
    ((runChunks chunks).windows.map Prod.snd)[i]? =
      some (chunks.flatten.take ((i + 1) * WINDOW_BYTES)) := by
  simp only [runChunks] at hi ⊢
  obtain ⟨hh, hbuf, -, -⟩ := runChunks_run chunks initState
  have hwin : WinOK (runLoop initState (chunkScript chunks)).1.windows
      (runLoop initState (chunkScript chunks)).1.buffer :=
    (runLoop_inv (chunkScript chunks) initState runInv_initState).1
  obtain ⟨-, h2, -⟩ := hwin i hi
  rw [List.getElem?_map, List.getElem?_eq_getElem hi]
  simp only [Option.map_some']
  rw [h2, hbuf]
  simp [initState]

/-- C2 witness: for one 288000-byte chunk, analysis 0 covers exactly the
first 288000 bytes received. -/
theorem stream_window_is_cumulative_witness :
    0 < (runChunks [zeros 288000]).windows.length ∧
    ((runChunks [zeros 288000]).windows.map Prod.snd)[0]? =
      some (([zeros 288000].flatten).take ((0 + 1) * WINDOW_BYTES)) := by
  have hlen : (runChunks [zeros 288000]).windows.length = 1 := by
    rw [runChunks_singleton]
    exact runLoop_single_ok (zeros 288000) [] (by
      rw [zeros_length]
      norm_num [WINDOW_BYTES, SAMPLE_RATE, CHANNELS, SAMPLE_WIDTH, WINDOW_SECONDS])
  exact ⟨by omega, stream_window_is_cumulative _ 0 (by omega)⟩

/-- C9: in every session — healthy or failing — the analysis thresholds are
exactly 288000, 576000, … in order (strictly increasing by the fixed
window increment, each fired at most once), and every analysis at threshold
`t` submits exactly `t` bytes (so the buffer had reached `t` when it
fired), `t` never exceeding the final buffer length. -/
theorem stream_threshold_invariants (tokenOk : Bool) (ie : InitEvent)
    (script : List LoopEvent) :
    ((websocket_realtime tokenOk ie script).windows.map Prod.fst =
      (List.range (websocket_realtime tokenOk ie script).windows.length).map
        fun i => (i + 1) * WINDOW_BYTES) ∧
    ∀ i, i < (websocket_realtime tokenOk ie script).windows.length →
      ∃ w, (websocket_realtime tokenOk ie script).windows[i]? = some w ∧
        w.2.length = w.1 ∧
        w.1 ≤ (websocket_realtime tokenOk ie script).buffer.length := by
  have key : ∀ S : SessState, WinOK S.windows S.buffer →
      (S.windows.map Prod.fst =
        (List.range S.windows.length).map fun i => (i + 1) * WINDOW_BYTES) ∧
      ∀ i, i < S.windows.length →
        ∃ w, S.windows[i]? = some w ∧ w.2.length = w.1 ∧
          w.1 ≤ S.buffer.length := by
    intro S hS
    constructor
    · refine List.ext_getElem (by simp) ?_
      intro n h1 h2
      obtain ⟨hf, -, -⟩ := hS n (by simpa using h1)
      simp only [List.getElem_map, List.getElem_range]
      exact hf
    · intro i hi
      obtain ⟨hf, hsnd, hle⟩ := hS i hi
      refine ⟨S.windows[i], List.getElem?_eq_getElem hi, ?_, ?_⟩
      · rw [hsnd, hf, List.length_take]
        exact Nat.min_eq_left hle
      · rw [hf]
        exact hle
  cases tokenOk with
  | false =>
    constructor <;> simp [websocket_realtime, initState]
  | true =>
    cases ie with
    | initTimeout => constructor <;> simp [websocket_realtime, initState]
    | initDisconnect => constructor <;> simp [websocket_realtime, initState]
    | initUnparseable => constructor <;> simp [websocket_realtime, initState]
    | initPayload p =>
      by_cases hv : p.validB = true
      · rw [websocket_realtime_valid p hv script]
        exact key (runLoop initState script).1
          (runLoop_inv script initState runInv_initState).1
      · constructor <;> simp [websocket_realtime, hv, initState]

/-- C9 witness: after one 288000-byte chunk, analysis 0 exists, its
submitted bytes are exactly its 288000-byte threshold, and the buffer
reached that threshold. -/
theorem stream_threshold_invariants_witness :
    ∃ w, (websocket_realtime true (.initPayload goodInit)
        [.recvChunk (zeros 288000) ⟨.ok, .ok []⟩]).windows[0]? = some w ∧
      w.2.length = w.1 ∧
      w.1 ≤ (websocket_realtime true (.initPayload goodInit)
        [.recvChunk (zeros 288000) ⟨.ok, .ok []⟩]).buffer.length := by
  refine (stream_threshold_invariants true (.initPayload goodInit) _).2 0 ?_
  rw [websocket_realtime_valid goodInit (by decide) _]
  rw [runLoop_single_ok (zeros 288000) [] (by
    rw [zeros_length]
    norm_num [WINDOW_BYTES, SAMPLE_RATE, CHANNELS, SAMPLE_WIDTH, WINDOW_SECONDS])]
  omega

/-- C4: whenever an I/O or inference failure message appears in a session's
outbound traffic, the traffic is exactly a run of detections messages, then
that single error message, then the 1011 close frame — nothing afterwards —
and the failed window is the last analysis ever launched (no retry, no
further window). -/
theorem stream_failure_terminal (tokenOk : Bool) (ie : InitEvent)
    (script : List LoopEvent)
    (h : ∃ m ∈ (websocket_realtime tokenOk ie script).trace, isErrorMsg m = true) :
    ∃ pre err, isErrorMsg err = true ∧
      (websocket_realtime tokenOk ie script).trace =
        pre ++ [err, OutEvent.closeFrame 1011] ∧
      (∀ m ∈ pre, isDetectionsMsg m = true) ∧
      (websocket_realtime tokenOk ie script).windows.length = pre.length + 1 := by
  cases tokenOk with
  | false =>
    exfalso
    obtain ⟨m, hm, hmsg⟩ := h
    simp only [websocket_realtime, if_neg (Bool.false_ne_true),
      List.mem_singleton] at hm
    subst hm
    exact Bool.noConfusion hmsg
  | true =>
    cases ie with
    | initTimeout =>
      exfalso
      obtain ⟨m, hm, hmsg⟩ := h
      simp [websocket_realtime] at hm
      subst hm
      exact Bool.noConfusion hmsg
    | initDisconnect =>
      exfalso
      obtain ⟨m, hm, hmsg⟩ := h
      simp [websocket_realtime] at hm
      subst hm
      exact Bool.noConfusion hmsg
    | initUnparseable =>
      exfalso
      obtain ⟨m, hm, -⟩ := h
      simp [websocket_realtime, initState] at hm
    | initPayload p =>
      by_cases hv : p.validB = true
      · rw [websocket_realtime_valid p hv script] at h ⊢
        cases hhalt : (runLoop initState script).2 with
        | true =>
          rcases (runLoop_trace script initState traceInv_initState).1 hhalt with
            hnone | ⟨pre, err, he1, he2, he3, he4⟩
          · exfalso
            obtain ⟨m, hm, hmsg⟩ := h
            rw [hnone m hm] at hmsg
            exact Bool.noConfusion hmsg
          · exact ⟨pre, err, he1, he2, he3, he4⟩
        | false =>
          exfalso
          obtain ⟨m, hm, hmsg⟩ := h
          have htr := ((runLoop_trace script initState traceInv_initState).2
            hhalt).1 m hm
          rw [isDetectionsMsg_not_error m htr] at hmsg
          exact Bool.noConfusion hmsg
      · exfalso
        obtain ⟨m, hm, hmsg⟩ := h
        simp [websocket_realtime, hv] at hm
        rcases hm with rfl | rfl <;> exact Bool.noConfusion hmsg

/-- C4 witness: with inference raising on the second window only, the
session's outbound traffic is one detections message, one error message,
and the 1011 close frame, with exactly two analyses ever launched. -/
theorem stream_failure_terminal_witness :
    ∃ pre err, isErrorMsg err = true ∧
      (websocket_realtime true (.initPayload goodInit)
        [.recvChunk (zeros 288000) ⟨.ok, .ok [detA9]⟩,
         .recvChunk (zeros 288000) ⟨.ok, .fail⟩]).trace =
        pre ++ [err, OutEvent.closeFrame 1011] ∧
      (∀ m ∈ pre, isDetectionsMsg m = true) ∧
      (websocket_realtime true (.initPayload goodInit)
        [.recvChunk (zeros 288000) ⟨.ok, .ok [detA9]⟩,
         .recvChunk (zeros 288000) ⟨.ok, .fail⟩]).windows.length =
        pre.length + 1 := by
  apply stream_failure_terminal
  rw [websocket_realtime_valid goodInit (by decide) _]
  rw [runLoop_two_fail (zeros 288000) (zeros 288000) [detA9]
    (by rw [zeros_length]
        norm_num [WINDOW_BYTES, SAMPLE_RATE, CHANNELS, SAMPLE_WIDTH,
          WINDOW_SECONDS])
    (by rw [zeros_length]
        norm_num [WINDOW_BYTES, SAMPLE_RATE, CHANNELS, SAMPLE_WIDTH,
          WINDOW_SECONDS])]
  exact ⟨.birdnetErrorMsg, by simp, rfl⟩

/-- C3 (counterexample): if `write_temp_wav` raises after its
`NamedTemporaryFile(delete=False)` file has been created (e.g. the `wave`
write fails), the session reports the I/O error and closes without removing
that file — a window temp file is left behind. -/
theorem stream_temp_leak_on_create_failure :
    (websocket_realtime true (.initPayload goodInit)
      [.recvChunk (zeros 288000) ⟨.failFileLeft, .ok []⟩]).liveTempFiles = [0] ∧
    (websocket_realtime true (.initPayload goodInit)
      [.recvChunk (zeros 288000) ⟨.failFileLeft, .ok []⟩]).liveTempFiles ≠ [] := by
  have h : (websocket_realtime true (.initPayload goodInit)
      [.recvChunk (zeros 288000) ⟨.failFileLeft, .ok []⟩]).liveTempFiles = [0] := by
    rw [websocket_realtime_valid goodInit (by decide) _]
    exact runLoop_single_leak (zeros 288000) (.ok []) (by
      rw [zeros_length]
      norm_num [WINDOW_BYTES, SAMPLE_RATE, CHANNELS, SAMPLE_WIDTH, WINDOW_SECONDS])
  refine ⟨h, ?_⟩
  rw [h]
  simp

/-- C3 (amended): as long as no window's `write_temp_wav` raises after its
temp file was materialized, every session — success, inference failure, or
any other exit path — ends with no window temp file on disk. -/
theorem stream_no_temp_leak (tokenOk : Bool) (ie : InitEvent)
    (script : List LoopEvent)
    (h : ∀ e ∈ script, noMidwayCreateFail e = true) :
    (websocket_realtime tokenOk ie script).liveTempFiles = [] := by
  cases tokenOk with
  | false => simp [websocket_realtime, initState]
  | true =>
    cases ie with
    | initTimeout => simp [websocket_realtime, initState]
    | initDisconnect => simp [websocket_realtime, initState]
    | initUnparseable => simp [websocket_realtime, initState]
    | initPayload p =>
      by_cases hv : p.validB = true
      · rw [websocket_realtime_valid p hv script]
        exact runLoop_files script initState rfl h
      · simp [websocket_realtime, hv, initState]

/-- C3 witness: a session whose window's temp file is created and whose
inference then raises still ends with no temp file on disk. -/
theorem stream_no_temp_leak_witness :
    (∀ e ∈ [LoopEvent.recvChunk (zeros 288000) ⟨.ok, .fail⟩],
        noMidwayCreateFail e = true) ∧
    (websocket_realtime true (.initPayload goodInit)
      [.recvChunk (zeros 288000) ⟨.ok, .fail⟩]).liveTempFiles = [] := by
  have hall : ∀ e ∈ [LoopEvent.recvChunk (zeros 288000) ⟨.ok, .fail⟩],
      noMidwayCreateFail e = true := by
    intro e he
    simp only [List.mem_singleton] at he
    subst he
    rfl
  exact ⟨hall, stream_no_temp_leak true (.initPayload goodInit) _ hall⟩

/-- C5: a disconnect at the init wait produces no JSON message (only the
close frame); and a disconnect at any inbound-chunk wait terminates the
session at once — the final state is exactly the state already reached, so
no further outbound traffic ever happens, whatever events would have
followed. -/
theorem stream_disconnect_silent (tokenOk : Bool) (script : List LoopEvent) :
    (∀ m ∈ (websocket_realtime tokenOk .initDisconnect script).trace,
        isCloseFrame m = true) ∧
    ∀ (s : SessState) (pre post : List LoopEvent),
      (runLoop s pre).2 = false →
      runLoop s (pre ++ .recvDisconnect :: post) = ((runLoop s pre).1, true) := by
  constructor
  · intro m hm
    cases tokenOk <;> simp [websocket_realtime] at hm <;> subst hm <;> rfl
  · intro s pre post
    induction pre generalizing s with
    | nil =>
      intro _
      rfl
    | cons e rest ih =>
      intro hh
      cases heq : stepLoop s e with
      | inl s' =>
        have hh' : (runLoop s' rest).2 = false := by
          simpa only [runLoop, heq] using hh
        have hgoal := ih s' hh'
        calc runLoop s ((e :: rest) ++ .recvDisconnect :: post)
            = runLoop s' (rest ++ .recvDisconnect :: post) := by
              rw [List.cons_append]
              exact runLoop_cons_inl heq
          _ = ((runLoop s' rest).1, true) := hgoal
          _ = ((runLoop s (e :: rest)).1, true) := by
              rw [runLoop_cons_inl heq]
      | inr s' =>
        exfalso
        rw [runLoop_cons_inr heq] at hh
        exact Bool.noConfusion hh

/-- C5 witness: with the session idle after one poll timeout, a disconnect
ends the run immediately — the timeout event scripted afterwards never
produces a message. -/
theorem stream_disconnect_silent_witness :
    (runLoop initState [LoopEvent.recvTimeout]).2 = false ∧
    runLoop initState ([LoopEvent.recvTimeout] ++ .recvDisconnect ::
        [LoopEvent.timeExpired]) =
      ((runLoop initState [LoopEvent.recvTimeout]).1, true) :=
  ⟨rfl, (stream_disconnect_silent true []).2 initState [LoopEvent.recvTimeout]
    [LoopEvent.timeExpired] rfl⟩

/-- C6: a session that completes init and then receives zero audio bytes
(only poll timeouts and empty chunks) emits, once the elapsed-time check
fires, exactly one outbound message `{"timeout": true}` followed by the
normal-closure frame — and never any detections message. -/
theorem stream_timeout_single_message (p : RealtimeInitPayload)
    (hp : p.validB = true) (pre post : List LoopEvent)
    (hpre : ∀ e ∈ pre, isZeroByteEvent e = true) :
    (websocket_realtime true (.initPayload p)
        (pre ++ .timeExpired :: post)).trace =
      [.timeoutMsg, .closeFrame 1000] := by
  rw [websocket_realtime_valid p hp _, runLoop_zero_bytes _ pre hpre]
  rfl

/-- C6 witness: one poll timeout and one empty chunk, then clock expiry:
the whole outbound traffic is the timeout message and the 1000 close
frame. -/
theorem stream_timeout_single_message_witness :
    goodInit.validB = true ∧
    (∀ e ∈ [LoopEvent.recvTimeout, .recvChunk [] ⟨.ok, .ok []⟩],
        isZeroByteEvent e = true) ∧
    (websocket_realtime true (.initPayload goodInit)
        ([LoopEvent.recvTimeout, .recvChunk [] ⟨.ok, .ok []⟩] ++
          .timeExpired :: [])).trace =
      [.timeoutMsg, .closeFrame 1000] := by
  have hp : goodInit.validB = true := by decide
  have hpre : ∀ e ∈ [LoopEvent.recvTimeout, .recvChunk [] ⟨.ok, .ok []⟩],
      isZeroByteEvent e = true := by
    intro e he
    simp only [List.mem_cons, List.not_mem_nil, or_false] at he
    rcases he with rfl | rfl <;> rfl
  exact ⟨hp, hpre, stream_timeout_single_message goodInit hp _ _ hpre⟩

/-- C8 (counterexample): a first inbound frame that fails JSON parsing —
non-JSON text or a binary frame — is also not a valid init payload, yet the
exception it raises inside `receive_json` (line 137) is not caught by the
`except` at line 138 (which handles only `asyncio.TimeoutError` and
`WebSocketDisconnect`): the handler exits without sending
`{"error": "Invalid init payload"}` and without closing with 1008. -/
theorem stream_unparseable_init_no_reply :
    (websocket_realtime true .initUnparseable
        [.recvChunk (zeros 288000) ⟨.ok, .ok []⟩]).trace = [] ∧
    OutEvent.invalidInitMsg ∉ (websocket_realtime true .initUnparseable
        [.recvChunk (zeros 288000) ⟨.ok, .ok []⟩]).trace ∧
    OutEvent.closeFrame 1008 ∉ (websocket_realtime true .initUnparseable
        [.recvChunk (zeros 288000) ⟨.ok, .ok []⟩]).trace ∧
    (websocket_realtime true .initUnparseable
        [.recvChunk (zeros 288000) ⟨.ok, .ok []⟩]).buffer = [] ∧
    (websocket_realtime true .initUnparseable
        [.recvChunk (zeros 288000) ⟨.ok, .ok []⟩]).windows = [] := by
  refine ⟨rfl, ?_, ?_, rfl, rfl⟩ <;> simp [websocket_realtime, initState]

/-- C8 (amended): a first message that parses as JSON but is not a valid
init payload makes the server send `{"error": "Invalid init payload"}` and
close with the policy-violation code 1008; no audio is ever appended, no
analysis is ever scheduled or run, and no temp file is ever created.  (A
first frame that fails JSON parsing instead raises uncaught out of the
handler: no error message and no close frame are sent, though audio is
still never processed.) -/
theorem stream_invalid_init (p : RealtimeInitPayload) (script : List LoopEvent)
    (hp : p.validB = false) :
    (websocket_realtime true (.initPayload p) script).trace =
        [.invalidInitMsg, .closeFrame 1008] ∧
    (websocket_realtime true (.initPayload p) script).buffer = [] ∧
    (websocket_realtime true (.initPayload p) script).windows = [] ∧
    (websocket_realtime true (.initPayload p) script).liveTempFiles = [] := by
  have hws : websocket_realtime true (.initPayload p) script =
      { initState with trace := [.invalidInitMsg, .closeFrame 1008] } := by
    simp [websocket_realtime, hp]
  rw [hws]
  exact ⟨rfl, rfl, rfl, rfl⟩

/-- C8 witness: an init payload missing `lon` is rejected with the error
message and the 1008 close, and the scripted audio is never processed. -/
theorem stream_invalid_init_witness :
    badInit.validB = false ∧
    (websocket_realtime true (.initPayload badInit)
        [.recvChunk (zeros 288000) ⟨.ok, .ok []⟩]).trace =
      [.invalidInitMsg, .closeFrame 1008] ∧
    (websocket_realtime true (.initPayload badInit)
        [.recvChunk (zeros 288000) ⟨.ok, .ok []⟩]).buffer = [] ∧
    (websocket_realtime true (.initPayload badInit)
        [.recvChunk (zeros 288000) ⟨.ok, .ok []⟩]).windows = [] := by
  have hb : badInit.validB = false := by decide
  obtain ⟨h1, h2, h3, -⟩ := stream_invalid_init badInit
    [.recvChunk (zeros 288000) ⟨.ok, .ok []⟩] hb
  exact ⟨hb, h1, h2, h3⟩
